import Mathlib

/-!
Verification of the aem-mcp repository: a shallow embedding of its
credential management, CSRF-token cache, HTTP request executor, operation
set and tool dispatcher (src/aem-client.ts and the tool-registration file),
together with theorems settling the specification claims.

Modelling conventions:
* HTTP responses are records of status / statusText / body; `fetch` outcomes
  (network error vs. response) are explicit sum types.
* The process-wide mutable token state is passed explicitly.
* `URLSearchParams` is a list of key/value pairs with `set` = replace-first
  (the code never creates a duplicate key, so replace-first coincides with
  the real replace-all-but-first semantics).
* JS truthiness on optional strings is: defined and non-empty.
-/

namespace AemMcp

/-- An HTTP response as seen by the client: status code, status text and the
body read as text. -/
structure HttpResponse where
  status : Nat
  statusText : String
  body : String
  deriving Repr, DecidableEq

/-- `Response.ok` in the fetch API: status in [200, 300). -/
def respOk (r : HttpResponse) : Bool :=
  200 ≤ r.status && r.status < 300

/-- JSON values, the payloads that operations decode and the dispatcher
serialises. -/
inductive Json where
  | null : Json
  | bool (b : Bool) : Json
  | num (n : Int) : Json
  | str (s : String) : Json
  | arr (xs : List Json) : Json
  | obj (fields : List (String × Json)) : Json

/-- Hexadecimal digit character for `\uXXXX` escapes. -/
def hexDigit (n : Nat) : Char :=
  if n < 10 then Char.ofNat (48 + n) else Char.ofNat (87 + n)

/-- Four-digit hexadecimal rendering used by JSON string escapes. -/
def hex4 (n : Nat) : String :=
  String.mk [hexDigit (n / 4096 % 16), hexDigit (n / 256 % 16),
             hexDigit (n / 16 % 16), hexDigit (n % 16)]

/-- Escaping of a single character inside a JSON string literal, as
`JSON.stringify` does it. -/
def escapeJsonChar (c : Char) : String :=
  if c = '"' then "\\\""
  else if c = '\\' then "\\\\"
  else if c = '\n' then "\\n"
  else if c = '\t' then "\\t"
  else if c = '\r' then "\\r"
  else if c = Char.ofNat 8 then "\\b"
  else if c = Char.ofNat 12 then "\\f"
  else if c.toNat < 32 then "\\u" ++ hex4 c.toNat
  else String.singleton c

/-- A JSON string literal with quotes and escapes, as `JSON.stringify`
renders strings. -/
def escapeJsonString (s : String) : String :=
  "\"" ++ String.join (s.data.map escapeJsonChar) ++ "\""

/-- `n` spaces, the indentation unit of `JSON.stringify(v, null, 2)`. -/
def jsonIndent (n : Nat) : String :=
  String.mk (List.replicate n ' ')

/-- Model of `JSON.stringify(v, null, 2)` at nesting depth `d`: scalars are
rendered inline, non-empty arrays and objects one element per line with
2-space indentation per depth level. -/
def jsonStringify2 (d : Nat) : Json → String
  | .null => "null"
  | .bool b => if b then "true" else "false"
  | .num n => toString n
  | .str s => escapeJsonString s
  | .arr xs =>
    if xs.isEmpty then "[]"
    else
      "[\n" ++
      String.intercalate ",\n"
        (xs.attach.map fun x => jsonIndent (2 * (d + 1)) ++ jsonStringify2 (d + 1) x.1) ++
      "\n" ++ jsonIndent (2 * d) ++ "]"
  | .obj fs =>
    if fs.isEmpty then "\x7b\x7d"
    else
      "\x7b\n" ++
      String.intercalate ",\n"
        (fs.attach.map fun kv =>
          jsonIndent (2 * (d + 1)) ++ escapeJsonString kv.1.1 ++ ": " ++
          jsonStringify2 (d + 1) kv.1.2) ++
      "\n" ++ jsonIndent (2 * d) ++ "\x7d"
termination_by j => sizeOf j
decreasing_by
  · obtain ⟨v, hv⟩ := x
    have h1 := List.sizeOf_lt_of_mem hv
    simp only [Json.arr.sizeOf_spec]
    omega
  · obtain ⟨⟨k, v⟩, hv⟩ := kv
    have h1 := List.sizeOf_lt_of_mem hv
    simp only [Prod.mk.sizeOf_spec] at h1
    simp only [Json.obj.sizeOf_spec]
    omega

/-- The outward result of one tool invocation: the error flag and the single
text content block (src tools file, `textResult` / `errorResult`). -/
structure ToolResult where
  isError : Bool
  text : String
  deriving Repr, DecidableEq

/-- `textResult(data)`: the text is the payload itself when it is a string,
otherwise `JSON.stringify(data, null, 2)`. -/
def textResult (data : Json) : ToolResult :=
  { isError := false,
    text := match data with
            | .str s => s
            | v => jsonStringify2 0 v }

/-- `errorResult(message)`: marked as an error, text prefixed with
`Error: `. -/
def errorResult (message : String) : ToolResult :=
  { isError := true, text := "Error: " ++ message }

/-- The per-tool handler pattern of the dispatcher: every handler runs the
operation inside try/catch, returning `textResult` of the payload on success
and `errorResult` of the stringified failure on any thrown error. The
operation's outcome is embedded as `Except String Json` (the `String` being
`String(err)`). -/
def dispatchTool (outcome : Except String Json) : ToolResult :=
  match outcome with
  | .ok data => textResult data
  | .error e => errorResult e

/-! ### Bearer-token credential provider (aem-client.ts lines 377-449) -/

/-- The module-level mutable token state: `accessToken` (initialised from the
`AEM_ACCESS_TOKEN` environment value, default empty) and `tokenExpiresAt` in
epoch milliseconds (initialised to 0, meaning unknown/expired). -/
structure TokenState where
  accessToken : String
  tokenExpiresAt : Int
  deriving Repr, DecidableEq

/-- The token state at process start: the environment-supplied static token
(possibly empty) and expiry 0. -/
def initialTokenState (envToken : String) : TokenState :=
  { accessToken := envToken, tokenExpiresAt := 0 }

/-- The IMS client-credential configuration (`AEM_CLIENT_ID`,
`AEM_CLIENT_SECRET`, `AEM_SCOPES`; empty string = unset). -/
structure ImsConfig where
  clientId : String
  clientSecret : String
  scopes : String
  deriving Repr, DecidableEq

/-- The outcome of the single IMS token-exchange `fetch`: a network error, a
non-success response, or a success response decoded to
`\x7baccess_token, expires_in\x7d` (`expires_in` in seconds). -/
inductive ImsOutcome where
  | netErr (msg : String)
  | httpErr (status : Nat) (text : String)
  | success (accessToken : String) (expiresIn : Int)
  deriving Repr, DecidableEq

/-- The configuration-error message `refreshAccessToken` throws when any of
the three IMS credentials is unset. -/
def imsConfigErrMsg : String :=
  "AEM_CLIENT_ID, AEM_CLIENT_SECRET, and AEM_SCOPES are required for automatic token refresh. " ++
  "Run `npm run get-token` to fetch a token manually, or add all three to .env. " ++
  "AEM_SCOPES must be copied exactly from Adobe Developer Console → OAuth Server-to-Server → Credential details."

/-- The error message thrown on a non-success IMS response. -/
def imsHttpErrMsg (status : Nat) (text : String) : String :=
  "IMS token refresh failed (" ++ toString status ++ "): " ++ text

/-- `refreshAccessToken()`: throws the configuration error before any network
call when a credential is missing; otherwise issues the exchange; on a
non-success response throws with status and body; on success stores the new
token with expiry `now + (expires_in - 60) * 1000` (epoch ms, i.e. a 60
second safety margin). Returns the error-or-new-state and whether the
exchange `fetch` was actually issued. -/
def refreshAccessToken (cfg : ImsConfig) (now : Int)
    (o : ImsOutcome) : Except String TokenState × Bool :=
  if cfg.clientId = "" ∨ cfg.clientSecret = "" ∨ cfg.scopes = "" then
    (.error imsConfigErrMsg, false)
  else
    match o with
    | .netErr m => (.error m, true)
    | .httpErr s t => (.error (imsHttpErrMsg s t), true)
    | .success tok e =>
      (.ok { accessToken := tok, tokenExpiresAt := now + (e - 60) * 1000 }, true)

/-- The outcome of one bearer-token resolution: the returned token or thrown
error, the token state afterwards, whether `refreshAccessToken` was entered,
and whether an IMS exchange was issued. -/
structure ResolveResult where
  result : Except String String
  newState : TokenState
  refreshAttempted : Bool
  exchangeIssued : Bool
  deriving Repr

/-- `ensureValidToken()`: refreshes when the cached token is empty or
`Date.now() >= tokenExpiresAt`, then returns the (possibly new) cached
token; otherwise returns the cached token with no network call. -/
def ensureValidToken (cfg : ImsConfig) (st : TokenState) (now : Int)
    (o : ImsOutcome) : ResolveResult :=
  if st.accessToken = "" ∨ st.tokenExpiresAt ≤ now then
    match refreshAccessToken cfg now o with
    | (.error e, ex) =>
      { result := .error e, newState := st, refreshAttempted := true, exchangeIssued := ex }
    | (.ok st2, ex) =>
      { result := .ok st2.accessToken, newState := st2, refreshAttempted := true, exchangeIssued := ex }
  else
    { result := .ok st.accessToken, newState := st, refreshAttempted := false, exchangeIssued := false }

/-! ### Two concurrent bearer-token resolutions (event-loop interleaving)

Each caller of `ensureValidToken` runs synchronously from its entry up to
the `await fetch(IMS_TOKEN_URL, ...)` suspension inside
`refreshAccessToken`, at which point control returns to the event loop and
the other caller may run. A caller is therefore a two-phase machine: the
start phase (check the shared state, possibly issue an exchange and
suspend) and the resolve phase (the exchange completes, the shared state is
written). -/

/-- Phase of one caller of `ensureValidToken`. -/
inductive CallerPhase where
  | idle
  | awaitingFetch
  | done
  deriving Repr, DecidableEq

/-- One caller: its phase and, when finished, its returned token or thrown
error. -/
structure CallerState where
  phase : CallerPhase
  result : Option (Except String String)
  deriving Repr

/-- Shared system state for two concurrent resolutions: the process-wide
token state, the number of IMS exchanges issued so far, and both callers. -/
structure ConcState where
  shared : TokenState
  exchanges : Nat
  a : CallerState
  b : CallerState
  deriving Repr

/-- The synchronous prefix of `ensureValidToken` for one caller: check the
shared token state; if invalid, enter `refreshAccessToken`, which either
throws the configuration error at once or issues the IMS exchange and
suspends; if valid, return the cached token at once. -/
def callerStart (cfg : ImsConfig) (now : Int) (sh : TokenState) (ex : Nat)
    (c : CallerState) : CallerState × TokenState × Nat :=
  match c.phase with
  | .idle =>
    if sh.accessToken = "" ∨ sh.tokenExpiresAt ≤ now then
      if cfg.clientId = "" ∨ cfg.clientSecret = "" ∨ cfg.scopes = "" then
        ({ phase := .done, result := some (.error imsConfigErrMsg) }, sh, ex)
      else
        ({ phase := .awaitingFetch, result := none }, sh, ex + 1)
    else
      ({ phase := .done, result := some (.ok sh.accessToken) }, sh, ex)
  | _ => (c, sh, ex)

/-- The continuation of `ensureValidToken` after the caller's IMS exchange
completes with outcome `o`: on success the shared token state is
overwritten and the (new) cached token returned; on failure the error is
thrown and the shared state left unchanged. -/
def callerResolve (now : Int) (o : ImsOutcome) (sh : TokenState)
    (c : CallerState) : CallerState × TokenState :=
  match c.phase with
  | .awaitingFetch =>
    match o with
    | .netErr m => ({ phase := .done, result := some (.error m) }, sh)
    | .httpErr s t => ({ phase := .done, result := some (.error (imsHttpErrMsg s t)) }, sh)
    | .success tok e =>
      let sh2 : TokenState := { accessToken := tok, tokenExpiresAt := now + (e - 60) * 1000 }
      ({ phase := .done, result := some (.ok sh2.accessToken) }, sh2)
  | _ => (c, sh)

/-- Scheduling events for the two callers A and B. -/
inductive ConcEvent where
  | startA
  | startB
  | resolveA
  | resolveB
  deriving Repr, DecidableEq

/-- One scheduler step. `oA` / `oB` are the outcomes of the exchanges issued
by A and B respectively. -/
def concStep (cfg : ImsConfig) (now : Int) (oA oB : ImsOutcome)
    (s : ConcState) : ConcEvent → ConcState
  | .startA =>
    let (c, sh, ex) := callerStart cfg now s.shared s.exchanges s.a
    { s with a := c, shared := sh, exchanges := ex }
  | .startB =>
    let (c, sh, ex) := callerStart cfg now s.shared s.exchanges s.b
    { s with b := c, shared := sh, exchanges := ex }
  | .resolveA =>
    let (c, sh) := callerResolve now oA s.shared s.a
    { s with a := c, shared := sh }
  | .resolveB =>
    let (c, sh) := callerResolve now oB s.shared s.b
    { s with b := c, shared := sh }

/-- Run a schedule from both callers idle. -/
def runConc (cfg : ImsConfig) (st : TokenState) (now : Int)
    (oA oB : ImsOutcome) (evs : List ConcEvent) : ConcState :=
  evs.foldl (concStep cfg now oA oB)
    { shared := st, exchanges := 0,
      a := { phase := .idle, result := none },
      b := { phase := .idle, result := none } }

/-- The JS event-loop schedule for two concurrent calls: A runs until it
suspends at its exchange, then B runs until it suspends, then the two
fetches complete in order. -/
def eventLoopSchedule : List ConcEvent :=
  [.startA, .startB, .resolveA, .resolveB]

/-! ### CSRF security-token cache and form posts (aem-client.ts 381-401, 497-509) -/

/-- Outcome of the CSRF-token `fetch` in `fetchCsrfToken`: a thrown network
or auth error, a non-success response, a success response whose body fails
to parse as JSON, or a parsed body whose `token` field is present or
absent. -/
inductive CsrfOutcome where
  | netErr (msg : String)
  | notOk
  | badJson
  | okToken (token : Option String)
  deriving Repr, DecidableEq

/-- `fetchCsrfToken()`: on a thrown error the cache is set to the empty
string and returned; on a non-success response the empty string is returned
with the cache untouched; on success the cache is set to the `token` field
(empty when absent) and returned. Returns (new cache, returned value). -/
def fetchCsrfToken (cache : String) (o : CsrfOutcome) : String × String :=
  match o with
  | .netErr _ => ("", "")
  | .badJson => ("", "")
  | .notOk => (cache, "")
  | .okToken t => (t.getD "", t.getD "")

/-- `getCsrfToken()`: fetches only when the cache is empty, then returns the
cache. Returns (returned token, new cache, whether a fetch was issued). -/
def getCsrfToken (cache : String) (o : CsrfOutcome) : String × String × Bool :=
  if cache = "" then
    let r := fetchCsrfToken cache o
    (r.1, r.1, true)
  else
    (cache, cache, false)

/-- An outbound form POST: its headers and form body. -/
structure FormRequest where
  headers : List (String × String)
  formBody : List (String × String)
  deriving Repr, DecidableEq

/-- Header lookup (first match). -/
def lookupHeader (req : FormRequest) (k : String) : Option String :=
  (req.headers.find? fun p => p.1 = k).map Prod.snd

/-- `aemFormPost(endpoint, formData)`: resolves the CSRF token through the
cache and issues the POST with Authorization, the form content type, and the
`CSRF-Token` header exactly when the resolved token is non-empty. Returns
the issued request and the new cache. The request is always issued: a
token-cache failure only makes the header absent. -/
def aemFormPost (cache : String) (o : CsrfOutcome) (auth : String)
    (formData : List (String × String)) : FormRequest × String :=
  let g := getCsrfToken cache o
  ({ headers := [("Authorization", auth), ("Content-Type", "application/x-www-form-urlencoded")] ++
       (if g.1 = "" then [] else [("CSRF-Token", g.1)]),
     formBody := formData },
   g.2.1)

/-! ### Request executor and operation error envelopes (aem-client.ts 464-494, 528-587, 665-687, 704-721) -/

/-- Substring test on character lists: `pat` is a prefix of `l`. -/
def isPrefixList : List Char → List Char → Bool
  | [], _ => true
  | _ :: _, [] => false
  | a :: as, b :: bs => a = b && isPrefixList as bs

/-- Substring test on character lists: `pat` occurs somewhere in the
second list. -/
def containsList (pat : List Char) : List Char → Bool
  | [] => pat.isEmpty
  | c :: t => isPrefixList pat (c :: t) || containsList pat t

/-- `s` contains `pat` as a substring. -/
def strContains (s pat : String) : Bool :=
  containsList pat.data s.data

/-- The failure message `aemRequest` throws on a non-success response:
`AEM API error $\x7bstatus\x7d $\x7bstatusText\x7d: $\x7bbody\x7d`. -/
def aemRequestErrMsg (r : HttpResponse) : String :=
  "AEM API error " ++ toString r.status ++ " " ++ r.statusText ++ ": " ++ r.body

/-- The status check of `aemRequest`: a non-success response raises the
structured message, a success response is passed on for decoding. -/
def aemRequestCheck (r : HttpResponse) : Except String HttpResponse :=
  if respOk r then .ok r else .error (aemRequestErrMsg r)

/-- The failure message `createPage` throws on a non-success form-post
response (status and body, no status text). -/
def createPageErrMsg (r : HttpResponse) : String :=
  "AEM create page error " ++ toString r.status ++ ": " ++ r.body

/-- The status check of `createPage` after its form post. -/
def createPageCheck (r : HttpResponse) : Except String HttpResponse :=
  if respOk r then .ok r else .error (createPageErrMsg r)

/-- The failure message `updatePageProperties` throws on a non-success
response. -/
def updatePageErrMsg (r : HttpResponse) : String :=
  "AEM update page error " ++ toString r.status ++ ": " ++ r.body

/-- The failure message `deletePage` throws on a non-success response. -/
def deletePageErrMsg (r : HttpResponse) : String :=
  "AEM delete page error " ++ toString r.status ++ ": " ++ r.body

/-- The failure message `createContentFragment` throws on a non-success
response. -/
def createFragmentErrMsg (r : HttpResponse) : String :=
  "AEM create content fragment error " ++ toString r.status ++ ": " ++ r.body

/-- The failure message `replicatePage` throws on a non-success response. -/
def replicateErrMsg (r : HttpResponse) : String :=
  "AEM replication error " ++ toString r.status ++ ": " ++ r.body

/-! ### QueryBuilder search (aem-client.ts 591-619, 645-663) -/

/-- A caller-supplied query value: TypeScript `string | number`. -/
inductive QVal where
  | str (s : String)
  | num (n : Int)
  deriving Repr, DecidableEq

/-- JS `String(value)` on a query value. -/
def qvalToString : QVal → String
  | .str s => s
  | .num n => toString n

/-- The search-argument bag (`QueryBuilderParams`): the six recognized keys
as typed fields (absent = `undefined`) plus the additional caller-supplied
entries in insertion order (`none` = an entry present with value
`undefined`). In JS all of these live in one object, so the extra entry
names never collide with the recognized field names; entries with a
recognized name are skipped by the passthrough loop in any case. -/
structure QueryBuilderParams where
  path : Option String := none
  type : Option String := none
  fulltext : Option String := none
  orderby : Option String := none
  limit : Option Int := none
  offset : Option Int := none
  extra : List (String × Option QVal) := []
  deriving Repr, DecidableEq

/-- The recognized keys excluded from the passthrough loop. -/
def recognizedKeys : List String :=
  ["path", "type", "fulltext", "limit", "offset", "orderby"]

/-- `URLSearchParams.set`: replace the value of an existing key in place,
otherwise append. The code never creates duplicate keys, so replace-first
coincides with the fetch-spec semantics. -/
def setParam : List (String × String) → String → String → List (String × String)
  | [], k, v => [(k, v)]
  | (k', v') :: rest, k, v =>
    if k' = k then (k, v) :: rest else (k', v') :: setParam rest k v

/-- `if (params.x) query.set(k, params.x)` for an optional string: a JS
truthiness guard, so the key is set exactly when the value is defined and
non-empty. -/
def condSetStr (q : List (String × String)) (k : String) :
    Option String → List (String × String)
  | some s => if s = "" then q else setParam q k s
  | none => q

/-- The passthrough loop of `searchContent`: every entry whose key is not
recognized and whose value is defined is set on the query. -/
def extraFold (extra : List (String × Option QVal)) (q : List (String × String)) :
    List (String × String) :=
  extra.foldl
    (fun q kv =>
      if recognizedKeys.contains kv.1 then q
      else
        match kv.2 with
        | some v => setParam q kv.1 (qvalToString v)
        | none => q)
    q

/-- The query string built by `searchContent`, as an ordered key/value
list: `p.limit` (default 20), `p.offset` (default 0), the four truthy
recognized filters, then the passthrough entries. -/
def searchContentQuery (p : QueryBuilderParams) : List (String × String) :=
  let q := setParam [] "p.limit" (toString (p.limit.getD 20))
  let q := setParam q "p.offset" (toString (p.offset.getD 0))
  let q := condSetStr q "path" p.path
  let q := condSetStr q "type" p.type
  let q := condSetStr q "fulltext" p.fulltext
  let q := condSetStr q "orderby" p.orderby
  extraFold p.extra q

/-- Query lookup (first match). -/
def lookupQ (q : List (String × String)) (k : String) : Option String :=
  (q.find? fun p => p.1 = k).map Prod.snd

/-- Claim C6 as stated, as a decidable check on one argument bag: `p.limit`
and `p.offset` equal the supplied values or their defaults, each recognized
filter appears in the emitted query exactly when supplied (defined), and
every other defined entry is passed through verbatim. -/
def searchClaimHolds (p : QueryBuilderParams) : Bool :=
  let q := searchContentQuery p
  lookupQ q "p.limit" == some (toString (p.limit.getD 20)) &&
  lookupQ q "p.offset" == some (toString (p.offset.getD 0)) &&
  (match p.path with
   | some s => lookupQ q "path" == some s
   | none => lookupQ q "path" == none) &&
  (match p.type with
   | some s => lookupQ q "type" == some s
   | none => lookupQ q "type" == none) &&
  (match p.fulltext with
   | some s => lookupQ q "fulltext" == some s
   | none => lookupQ q "fulltext" == none) &&
  (match p.orderby with
   | some s => lookupQ q "orderby" == some s
   | none => lookupQ q "orderby" == none) &&
  p.extra.all fun kv =>
    if recognizedKeys.contains kv.1 then true
    else
      match kv.2 with
      | some v => lookupQ q kv.1 == some (qvalToString v)
      | none => true

/-- The argument bag `listContentFragments` builds before calling
`searchContent`: folder path, type `dam:Asset`, limit 50, the base
content-fragment filter pair, and — when the model path is truthy — the
numbered model filter pair. -/
def listContentFragmentsParams (folderPath : String) (modelPath : Option String) :
    QueryBuilderParams :=
  { path := some folderPath,
    type := some "dam:Asset",
    limit := some 50,
    extra :=
      [("property", some (.str "jcr:content/contentFragment")),
       ("property.value", some (.str "true"))] ++
      (match modelPath with
       | some m =>
         if m = "" then []
         else
           [("property.1_property", some (.str "jcr:content/data/cq:model")),
            ("property.1_value", some (.str m))]
       | none => []) }

/-! ### Page property update (aem-client.ts 552-570) -/

/-- The form body built by `updatePageProperties`: the charset marker first,
then `append` of each property whose value is defined, stringified. -/
def updateFormData (props : List (String × Option QVal)) : List (String × String) :=
  props.foldl
    (fun fd kv =>
      match kv.2 with
      | some v => fd ++ [(kv.1, qvalToString v)]
      | none => fd)
    [("_charset_", "utf-8")]

/-- `updatePageProperties(pagePath, properties)` given the form-post
response: the form it posts, and `\x7bsuccess: true, path\x7d` on success or
the structured error on a non-success status. -/
def updatePageProperties (pagePath : String) (props : List (String × Option QVal))
    (r : HttpResponse) : List (String × String) × Except String Json :=
  (updateFormData props,
   if respOk r then
     .ok (.obj [("success", .bool true), ("path", .str pagePath)])
   else
     .error (updatePageErrMsg r))

/-! ### Diagnostic check (aem-client.ts 725-779) -/

/-- Outcome of the CSRF probe of `checkConnection`: a thrown error (fetch or
JSON parse), a non-success response, or a success response with the parsed
token. -/
inductive CsrfProbeOutcome where
  | exn (e : String)
  | respNotOk (r : HttpResponse)
  | respOk (r : HttpResponse) (token : String)
  deriving Repr, DecidableEq

/-- Outcome of the current-user probe: a thrown error, a non-success
response with its body text, or the parsed user record. -/
inductive UserProbeOutcome where
  | exn (e : String)
  | respNotOk (status : Nat) (bodyText : String)
  | respOk (user : Json)

/-- Outcome of the two baseline read probes (`/content.1.json`,
`/content/dam.1.json`). -/
inductive ReadProbeOutcome where
  | exn (e : String)
  | resp (r : HttpResponse)
  deriving Repr, DecidableEq

/-- The `csrf` entry of the report: status, ok flag and a truncated token
preview on success; the stringified error on a thrown failure. -/
def csrfEntry : CsrfProbeOutcome → Json
  | .exn e => .obj [("error", .str e)]
  | .respNotOk r => .obj [("status", .num r.status), ("ok", .bool false), ("token", .null)]
  | .respOk r t =>
    .obj [("status", .num r.status), ("ok", .bool true), ("token", .str (t.take 8 ++ "..."))]

/-- The `currentUser` entry of the report. -/
def userEntry : UserProbeOutcome → Json
  | .exn e => .obj [("error", .str e)]
  | .respNotOk s b => .obj [("status", .num s), ("error", .str b)]
  | .respOk u => u

/-- The `contentAccess` / `damAccess` entry of the report. -/
def readEntry : ReadProbeOutcome → Json
  | .exn e => .obj [("error", .str e)]
  | .resp r => .obj [("status", .num r.status), ("ok", .bool (respOk r))]

/-- `checkConnection()`: the aggregate report with the base URL and the four
probe entries, each computed from its own probe's outcome alone. -/
def checkConnection (baseUrl : String) (o1 : CsrfProbeOutcome)
    (o2 : UserProbeOutcome) (o3 o4 : ReadProbeOutcome) : List (String × Json) :=
  [("baseUrl", .str baseUrl),
   ("csrf", csrfEntry o1),
   ("currentUser", userEntry o2),
   ("contentAccess", readEntry o3),
   ("damAccess", readEntry o4)]

/-- Entry lookup in the aggregate report (first match). -/
def lookupEntry (q : List (String × Json)) (k : String) : Option Json :=
  (q.find? fun p => p.1 = k).map Prod.snd

/-! ## Helper lemmas -/

theorem lookupQ_nil (k : String) : lookupQ [] k = none := rfl

theorem lookupQ_cons (k' v' : String) (rest : List (String × String)) (k : String) :
    lookupQ ((k', v') :: rest) k = if k' = k then some v' else lookupQ rest k := by
  by_cases h : k' = k <;> simp [lookupQ, List.find?_cons, h]

theorem lookupQ_setParam_self (q : List (String × String)) (k v : String) :
    lookupQ (setParam q k v) k = some v := by
  induction q with
  | nil => simp [setParam, lookupQ_cons]
  | cons p rest ih =>
    obtain ⟨k', v'⟩ := p
    by_cases h : k' = k
    · simp [setParam, h, lookupQ_cons]
    · simp [setParam, h, lookupQ_cons, ih]

theorem lookupQ_setParam_ne (q : List (String × String)) (k v k' : String)
    (h : k' ≠ k) : lookupQ (setParam q k v) k' = lookupQ q k' := by
  induction q with
  | nil => simp [setParam, lookupQ_cons, Ne.symm h]
  | cons p rest ih =>
    obtain ⟨k'', v''⟩ := p
    by_cases hk : k'' = k
    · subst hk
      simp [setParam, lookupQ_cons, Ne.symm h]
    · simp [setParam, hk, lookupQ_cons, ih]

theorem lookupQ_condSetStr_ne (q : List (String × String)) (k : String)
    (o : Option String) (k' : String) (h : k' ≠ k) :
    lookupQ (condSetStr q k o) k' = lookupQ q k' := by
  cases o with
  | none => rfl
  | some s =>
    by_cases hs : s = "" <;> simp [condSetStr, hs, lookupQ_setParam_ne _ _ _ _ h]

theorem lookupQ_condSetStr_self (q : List (String × String)) (k : String)
    (o : Option String) :
    lookupQ (condSetStr q k o) k =
      match o with
      | some s => if s = "" then lookupQ q k else some s
      | none => lookupQ q k := by
  cases o with
  | none => rfl
  | some s =>
    by_cases hs : s = "" <;> simp [condSetStr, hs, lookupQ_setParam_self]

theorem extraFold_cons (kv : String × Option QVal) (rest : List (String × Option QVal))
    (q : List (String × String)) :
    extraFold (kv :: rest) q =
      extraFold rest
        (if recognizedKeys.contains kv.1 then q
         else
           match kv.2 with
           | some v => setParam q kv.1 (qvalToString v)
           | none => q) := rfl

theorem extraFold_cons_recognized (kv : String × Option QVal)
    (rest : List (String × Option QVal)) (q : List (String × String))
    (h : recognizedKeys.contains kv.1 = true) :
    extraFold (kv :: rest) q = extraFold rest q := by
  rw [extraFold_cons, if_pos h]

theorem extraFold_cons_none (k : String) (rest : List (String × Option QVal))
    (q : List (String × String)) :
    extraFold ((k, none) :: rest) q = extraFold rest q := by
  rw [extraFold_cons]
  by_cases h : recognizedKeys.contains k = true <;> simp [h]

theorem extraFold_cons_set (k : String) (v : QVal)
    (rest : List (String × Option QVal)) (q : List (String × String))
    (h : recognizedKeys.contains k = false) :
    extraFold ((k, some v) :: rest) q = extraFold rest (setParam q k (qvalToString v)) := by
  rw [extraFold_cons, if_neg (by rw [h]; decide)]

theorem lookupQ_extraFold_of_not_set (extra : List (String × Option QVal))
    (q : List (String × String)) (k : String)
    (h : ∀ kv ∈ extra, recognizedKeys.contains kv.1 = false → kv.2 ≠ none → kv.1 ≠ k) :
    lookupQ (extraFold extra q) k = lookupQ q k := by
  induction extra generalizing q with
  | nil => rfl
  | cons kv rest ih =>
    have hrest : ∀ kv ∈ rest, recognizedKeys.contains kv.1 = false → kv.2 ≠ none → kv.1 ≠ k :=
      fun p hp => h p (List.mem_cons_of_mem _ hp)
    obtain ⟨k1, v1⟩ := kv
    by_cases hr : recognizedKeys.contains k1 = true
    · rw [extraFold_cons_recognized _ _ _ hr]
      exact ih q hrest
    · have hr' : recognizedKeys.contains k1 = false := by simpa using hr
      cases v1 with
      | none =>
        rw [extraFold_cons_none]
        exact ih q hrest
      | some v =>
        have hne : k1 ≠ k := by
          refine h (k1, some v) (List.mem_cons_self _ _) hr' (by simp)
        rw [extraFold_cons_set _ _ _ _ hr', ih _ hrest,
          lookupQ_setParam_ne _ _ _ _ (Ne.symm hne)]

theorem lookupQ_extraFold_recognized (extra : List (String × Option QVal))
    (q : List (String × String)) (k : String)
    (h : recognizedKeys.contains k = true) :
    lookupQ (extraFold extra q) k = lookupQ q k := by
  refine lookupQ_extraFold_of_not_set extra q k ?_
  intro kv _ hr _ hk
  rw [hk] at hr
  rw [h] at hr
  exact Bool.true_eq_false.mp hr

theorem lookupQ_extraFold_mem (extra : List (String × Option QVal))
    (q : List (String × String)) (k : String) (v : QVal)
    (hnd : (extra.map Prod.fst).Nodup)
    (hmem : (k, some v) ∈ extra)
    (hr : recognizedKeys.contains k = false) :
    lookupQ (extraFold extra q) k = some (qvalToString v) := by
  induction extra generalizing q with
  | nil => cases hmem
  | cons kv rest ih =>
    rcases List.mem_cons.mp hmem with heq | hmem'
    · subst heq
      rw [extraFold_cons_set _ _ _ _ hr]
      have hnotin : ∀ p ∈ rest, recognizedKeys.contains p.1 = false → p.2 ≠ none → p.1 ≠ k := by
        intro p hp _ _ hpk
        have : k ∈ rest.map Prod.fst := List.mem_map.mpr ⟨p, hp, hpk⟩
        simp only [List.map_cons, List.nodup_cons] at hnd
        exact hnd.1 this
      rw [lookupQ_extraFold_of_not_set rest _ k hnotin]
      exact lookupQ_setParam_self q k (qvalToString v)
    · have hnd' : (rest.map Prod.fst).Nodup := by
        simp only [List.map_cons, List.nodup_cons] at hnd
        exact hnd.2
      obtain ⟨k1, v1⟩ := kv
      by_cases hkr : recognizedKeys.contains k1 = true
      · rw [extraFold_cons_recognized _ _ _ hkr]
        exact ih q hnd' hmem'
      · have hkr' : recognizedKeys.contains k1 = false := by simpa using hkr
        cases v1 with
        | none =>
          rw [extraFold_cons_none]
          exact ih q hnd' hmem'
        | some w =>
          rw [extraFold_cons_set _ _ _ _ hkr']
          exact ih _ hnd' hmem'

theorem mem_keys_setParam (q : List (String × String)) (k v k' : String)
    (h : k' ∈ (setParam q k v).map Prod.fst) :
    k' ∈ q.map Prod.fst ∨ k' = k := by
  induction q with
  | nil =>
    simp [setParam] at h
    exact Or.inr h
  | cons p rest ih =>
    obtain ⟨k'', v''⟩ := p
    by_cases hk : k'' = k
    · subst hk
      simp [setParam] at h
      rcases h with h | h
      · exact Or.inr h
      · exact Or.inl (by simp [h])
    · simp [setParam, hk] at h
      rcases h with h | h
      · exact Or.inl (by simp [h])
      · rcases ih (by simpa using h) with h' | h'
        · exact Or.inl (by simp; exact Or.inr (by simpa using h'))
        · exact Or.inr h'

theorem nodupKeys_setParam (q : List (String × String)) (k v : String)
    (h : (q.map Prod.fst).Nodup) : ((setParam q k v).map Prod.fst).Nodup := by
  induction q with
  | nil => simp [setParam]
  | cons p rest ih =>
    obtain ⟨k'', v''⟩ := p
    simp only [List.map_cons, List.nodup_cons] at h
    by_cases hk : k'' = k
    · subst hk
      simpa [setParam, List.nodup_cons] using h
    · simp only [setParam, hk, if_neg, not_false_iff, List.map_cons, List.nodup_cons]
      refine ⟨?_, ih h.2⟩
      intro hmem
      rcases mem_keys_setParam rest k v k'' hmem with h' | h'
      · exact h.1 h'
      · exact hk h'

theorem nodupKeys_condSetStr (q : List (String × String)) (k : String)
    (o : Option String) (h : (q.map Prod.fst).Nodup) :
    ((condSetStr q k o).map Prod.fst).Nodup := by
  cases o with
  | none => exact h
  | some s =>
    by_cases hs : s = "" <;> simp [condSetStr, hs, h, nodupKeys_setParam]

theorem nodupKeys_extraFold (extra : List (String × Option QVal))
    (q : List (String × String)) (h : (q.map Prod.fst).Nodup) :
    ((extraFold extra q).map Prod.fst).Nodup := by
  induction extra generalizing q with
  | nil => exact h
  | cons kv rest ih =>
    obtain ⟨k1, v1⟩ := kv
    by_cases hr : recognizedKeys.contains k1 = true
    · rw [extraFold_cons_recognized _ _ _ hr]
      exact ih q h
    · have hr' : recognizedKeys.contains k1 = false := by simpa using hr
      cases v1 with
      | none =>
        rw [extraFold_cons_none]
        exact ih q h
      | some v =>
        rw [extraFold_cons_set _ _ _ _ hr']
        exact ih _ (nodupKeys_setParam q k1 (qvalToString v) h)

theorem isPrefixList_append_self (p r : List Char) :
    isPrefixList p (p ++ r) = true := by
  induction p with
  | nil => rfl
  | cons a as ih => simp [isPrefixList, ih]

theorem containsList_of_isPrefixList (pat l : List Char)
    (h : isPrefixList pat l = true) : containsList pat l = true := by
  cases l with
  | nil =>
    cases pat with
    | nil => rfl
    | cons a as => simp [isPrefixList] at h
  | cons c t => simp [containsList, h]

theorem containsList_append (a pat b : List Char) :
    containsList pat (a ++ pat ++ b) = true := by
  induction a with
  | nil =>
    refine containsList_of_isPrefixList pat _ ?_
    simpa using isPrefixList_append_self pat b
  | cons c as ih =>
    have h1 : (c :: as) ++ pat ++ b = c :: (as ++ pat ++ b) := by simp
    rw [h1]
    simp only [containsList, Bool.or_eq_true]
    right
    simpa [List.append_assoc] using ih

theorem strContains_of_eq (s x y z : String) (h : s = x ++ y ++ z) :
    strContains s y = true := by
  subst h
  simp only [strContains, String.data_append]
  exact containsList_append x.data y.data z.data

theorem lookupQ_searchContentQuery_plimit (p : QueryBuilderParams)
    (h : ∀ kv ∈ p.extra, kv.2 ≠ none → kv.1 ≠ "p.limit") :
    lookupQ (searchContentQuery p) "p.limit" = some (toString (p.limit.getD 20)) := by
  simp only [searchContentQuery]
  rw [lookupQ_extraFold_of_not_set _ _ _ (fun kv hkv _ hne => h kv hkv hne),
    lookupQ_condSetStr_ne _ _ _ _ (by decide),
    lookupQ_condSetStr_ne _ _ _ _ (by decide),
    lookupQ_condSetStr_ne _ _ _ _ (by decide),
    lookupQ_condSetStr_ne _ _ _ _ (by decide),
    lookupQ_setParam_ne _ _ _ _ (by decide),
    lookupQ_setParam_self]

theorem lookupQ_searchContentQuery_poffset (p : QueryBuilderParams)
    (h : ∀ kv ∈ p.extra, kv.2 ≠ none → kv.1 ≠ "p.offset") :
    lookupQ (searchContentQuery p) "p.offset" = some (toString (p.offset.getD 0)) := by
  simp only [searchContentQuery]
  rw [lookupQ_extraFold_of_not_set _ _ _ (fun kv hkv _ hne => h kv hkv hne),
    lookupQ_condSetStr_ne _ _ _ _ (by decide),
    lookupQ_condSetStr_ne _ _ _ _ (by decide),
    lookupQ_condSetStr_ne _ _ _ _ (by decide),
    lookupQ_condSetStr_ne _ _ _ _ (by decide),
    lookupQ_setParam_self]

theorem lookupQ_searchContentQuery_path (p : QueryBuilderParams) :
    lookupQ (searchContentQuery p) "path" =
      (match p.path with
       | some s => if s = "" then none else some s
       | none => none) := by
  simp only [searchContentQuery]
  rw [lookupQ_extraFold_recognized _ _ _ (by decide),
    lookupQ_condSetStr_ne _ _ _ _ (by decide),
    lookupQ_condSetStr_ne _ _ _ _ (by decide),
    lookupQ_condSetStr_ne _ _ _ _ (by decide),
    lookupQ_condSetStr_self,
    lookupQ_setParam_ne _ _ _ _ (by decide),
    lookupQ_setParam_ne _ _ _ _ (by decide)]
  cases p.path with
  | none => rfl
  | some s => by_cases hs : s = "" <;> simp [hs, lookupQ_nil]

theorem lookupQ_searchContentQuery_type (p : QueryBuilderParams) :
    lookupQ (searchContentQuery p) "type" =
      (match p.type with
       | some s => if s = "" then none else some s
       | none => none) := by
  simp only [searchContentQuery]
  rw [lookupQ_extraFold_recognized _ _ _ (by decide),
    lookupQ_condSetStr_ne _ _ _ _ (by decide),
    lookupQ_condSetStr_ne _ _ _ _ (by decide),
    lookupQ_condSetStr_self,
    lookupQ_condSetStr_ne _ _ _ _ (by decide),
    lookupQ_setParam_ne _ _ _ _ (by decide),
    lookupQ_setParam_ne _ _ _ _ (by decide)]
  cases p.type with
  | none => rfl
  | some s => by_cases hs : s = "" <;> simp [hs, lookupQ_nil]

theorem lookupQ_searchContentQuery_fulltext (p : QueryBuilderParams) :
    lookupQ (searchContentQuery p) "fulltext" =
      (match p.fulltext with
       | some s => if s = "" then none else some s
       | none => none) := by
  simp only [searchContentQuery]
  rw [lookupQ_extraFold_recognized _ _ _ (by decide),
    lookupQ_condSetStr_ne _ _ _ _ (by decide),
    lookupQ_condSetStr_self,
    lookupQ_condSetStr_ne _ _ _ _ (by decide),
    lookupQ_condSetStr_ne _ _ _ _ (by decide),
    lookupQ_setParam_ne _ _ _ _ (by decide),
    lookupQ_setParam_ne _ _ _ _ (by decide)]
  cases p.fulltext with
  | none => rfl
  | some s => by_cases hs : s = "" <;> simp [hs, lookupQ_nil]

theorem lookupQ_searchContentQuery_orderby (p : QueryBuilderParams) :
    lookupQ (searchContentQuery p) "orderby" =
      (match p.orderby with
       | some s => if s = "" then none else some s
       | none => none) := by
  simp only [searchContentQuery]
  rw [lookupQ_extraFold_recognized _ _ _ (by decide),
    lookupQ_condSetStr_self,
    lookupQ_condSetStr_ne _ _ _ _ (by decide),
    lookupQ_condSetStr_ne _ _ _ _ (by decide),
    lookupQ_condSetStr_ne _ _ _ _ (by decide),
    lookupQ_setParam_ne _ _ _ _ (by decide),
    lookupQ_setParam_ne _ _ _ _ (by decide)]
  cases p.orderby with
  | none => rfl
  | some s => by_cases hs : s = "" <;> simp [hs, lookupQ_nil]

theorem lookupQ_searchContentQuery_extra (p : QueryBuilderParams)
    (hnd : (p.extra.map Prod.fst).Nodup) (k : String) (v : QVal)
    (hmem : (k, some v) ∈ p.extra)
    (hr : recognizedKeys.contains k = false) :
    lookupQ (searchContentQuery p) k = some (qvalToString v) := by
  simp only [searchContentQuery]
  exact lookupQ_extraFold_mem _ _ _ _ hnd hmem hr

theorem lookupQ_searchContentQuery_none (p : QueryBuilderParams) (k : String)
    (h1 : k ≠ "p.limit") (h2 : k ≠ "p.offset") (h3 : k ≠ "path") (h4 : k ≠ "type")
    (h5 : k ≠ "fulltext") (h6 : k ≠ "orderby")
    (hextra : ∀ kv ∈ p.extra, kv.2 ≠ none → kv.1 ≠ k) :
    lookupQ (searchContentQuery p) k = none := by
  simp only [searchContentQuery]
  rw [lookupQ_extraFold_of_not_set _ _ _ (fun kv hkv _ hne => hextra kv hkv hne),
    lookupQ_condSetStr_ne _ _ _ _ h6,
    lookupQ_condSetStr_ne _ _ _ _ h5,
    lookupQ_condSetStr_ne _ _ _ _ h4,
    lookupQ_condSetStr_ne _ _ _ _ h3,
    lookupQ_setParam_ne _ _ _ _ h2,
    lookupQ_setParam_ne _ _ _ _ h1]
  rfl

theorem nodupKeys_searchContentQuery (p : QueryBuilderParams) :
    ((searchContentQuery p).map Prod.fst).Nodup := by
  simp only [searchContentQuery]
  apply nodupKeys_extraFold
  apply nodupKeys_condSetStr
  apply nodupKeys_condSetStr
  apply nodupKeys_condSetStr
  apply nodupKeys_condSetStr
  apply nodupKeys_setParam
  apply nodupKeys_setParam
  simp

theorem foldl_form_filterMap (props : List (String × Option QVal))
    (acc : List (String × String)) :
    props.foldl
      (fun fd kv =>
        match kv.2 with
        | some v => fd ++ [(kv.1, qvalToString v)]
        | none => fd)
      acc =
    acc ++ props.filterMap (fun kv => kv.2.map fun v => (kv.1, qvalToString v)) := by
  induction props generalizing acc with
  | nil => simp
  | cons kv rest ih =>
    obtain ⟨k1, v1⟩ := kv
    cases v1 <;> simp [ih, List.filterMap_cons]

/-! ## Claim theorems -/

/-- C1: For every tool invocation the dispatcher never lets a failure
escape: any error raised by the underlying operation is caught and returned
as a result whose `isError` flag is true and whose text is the failure's
message prefixed with `Error: `; on success the result's text is the
payload itself when it is a string, and otherwise the payload
pretty-printed as JSON with 2-space indentation. -/
theorem C1_dispatch_envelope (o : Except String Json) :
    ((dispatchTool o).isError = match o with | .ok _ => false | .error _ => true) ∧
    (∀ e, o = .error e → dispatchTool o = { isError := true, text := "Error: " ++ e }) ∧
    (∀ s, o = .ok (.str s) → dispatchTool o = { isError := false, text := s }) ∧
    (∀ v, o = .ok v → (∀ s, v ≠ .str s) →
      dispatchTool o = { isError := false, text := jsonStringify2 0 v }) := by
  refine ⟨?_, ?_, ?_, ?_⟩
  · cases o with
    | ok v => cases v <;> rfl
    | error e => rfl
  · rintro e rfl
    rfl
  · rintro s rfl
    rfl
  · rintro v rfl hs
    cases v with
    | str s => exact absurd rfl (hs s)
    | null => rfl
    | bool b => rfl
    | num n => rfl
    | arr xs => rfl
    | obj fs => rfl

/-- Witness for C1 at concrete outcomes: a thrown failure, a string
payload, and a structured payload. -/
theorem C1_dispatch_envelope_witness :
    dispatchTool (.error "boom") = { isError := true, text := "Error: boom" } ∧
    dispatchTool (.ok (.str "hello")) = { isError := false, text := "hello" } ∧
    dispatchTool (.ok (.obj [("a", .num 1)])) =
      { isError := false, text := jsonStringify2 0 (.obj [("a", .num 1)]) } :=
  ⟨(C1_dispatch_envelope (.error "boom")).2.1 "boom" rfl,
   (C1_dispatch_envelope (.ok (.str "hello"))).2.2.1 "hello" rfl,
   (C1_dispatch_envelope (.ok (.obj [("a", .num 1)]))).2.2.2 _ rfl
     (fun _ h => nomatch h)⟩

/-- C2: In bearer mode, resolving the authorization header returns the
cached token without any network call whenever the token is non-empty and
the current time is strictly before its stored expiry; otherwise it enters
the refresh routine, and a successful exchange returning `expires_in`
seconds stores the new token with expiry `now + (expires_in - 60)` seconds
(epoch milliseconds in the model). -/
theorem C2_bearer_token_resolution (cfg : ImsConfig) (st : TokenState)
    (now : Int) (o : ImsOutcome) :
    (st.accessToken ≠ "" → now < st.tokenExpiresAt →
      ensureValidToken cfg st now o =
        { result := .ok st.accessToken, newState := st,
          refreshAttempted := false, exchangeIssued := false }) ∧
    ((st.accessToken = "" ∨ st.tokenExpiresAt ≤ now) →
      (ensureValidToken cfg st now o).refreshAttempted = true ∧
      (cfg.clientId ≠ "" → cfg.clientSecret ≠ "" → cfg.scopes ≠ "" →
        (ensureValidToken cfg st now o).exchangeIssued = true ∧
        (∀ tok e, o = .success tok e →
          ensureValidToken cfg st now o =
            { result := .ok tok,
              newState := { accessToken := tok, tokenExpiresAt := now + (e - 60) * 1000 },
              refreshAttempted := true, exchangeIssued := true }))) := by
  constructor
  · intro h1 h2
    rw [ensureValidToken, if_neg (not_or.mpr ⟨h1, not_le.mpr h2⟩)]
  · intro hcond
    constructor
    · rcases hr : refreshAccessToken cfg now o with ⟨res, ex⟩
      cases res <;> simp [ensureValidToken, hcond, hr]
    · intro h1 h2 h3
      have hc : ¬(cfg.clientId = "" ∨ cfg.clientSecret = "" ∨ cfg.scopes = "") :=
        not_or.mpr ⟨h1, not_or.mpr ⟨h2, h3⟩⟩
      constructor
      · cases o <;> simp [ensureValidToken, refreshAccessToken, hcond, hc]
      · rintro tok e rfl
        simp [ensureValidToken, refreshAccessToken, hcond, hc]

/-- Witness for C2: a valid cached token is returned untouched; an expired
one is refreshed, `expires_in = 120` yielding expiry `now + 60` seconds. -/
theorem C2_bearer_token_resolution_witness :
    ensureValidToken ⟨"id", "sec", "sc"⟩ ⟨"tok", 1000⟩ 999 (.success "new" 120) =
      { result := .ok "tok", newState := ⟨"tok", 1000⟩,
        refreshAttempted := false, exchangeIssued := false } ∧
    ensureValidToken ⟨"id", "sec", "sc"⟩ ⟨"old", 1000⟩ 1000 (.success "new" 120) =
      { result := .ok "new", newState := ⟨"new", 1000 + (120 - 60) * 1000⟩,
        refreshAttempted := true, exchangeIssued := true } :=
  ⟨(C2_bearer_token_resolution ⟨"id", "sec", "sc"⟩ ⟨"tok", 1000⟩ 999
      (.success "new" 120)).1 (by decide) (by decide),
   (((C2_bearer_token_resolution ⟨"id", "sec", "sc"⟩ ⟨"old", 1000⟩ 1000
      (.success "new" 120)).2 (Or.inr (by decide))).2 (by decide) (by decide)
      (by decide)).2 "new" 120 rfl⟩

/-- C3 counterexample: with an expired cached token and complete IMS
configuration, the event-loop interleaving of two concurrent
`ensureValidToken` callers issues two IMS exchanges, not one — the claimed
coalescing guard does not exist in the code. -/
theorem C3_coalescing_counterexample :
    (runConc ⟨"id", "secret", "scope"⟩ ⟨"old", 0⟩ 1000000
      (.success "tokA" 300) (.success "tokB" 300) eventLoopSchedule).exchanges = 2 ∧
    ¬((runConc ⟨"id", "secret", "scope"⟩ ⟨"old", 0⟩ 1000000
      (.success "tokA" 300) (.success "tokB" 300) eventLoopSchedule).exchanges = 1) := by
  constructor <;> decide

/-- C3 amended: when two concurrent callers both resolve the authorization
header while the cached bearer token is expired (and the IMS credentials
are configured), each caller independently issues its own token-refresh
exchange: exactly two exchanges are issued, whatever the exchange
outcomes. -/
theorem C3_two_refreshes (cfg : ImsConfig) (st : TokenState) (now : Int)
    (oA oB : ImsOutcome)
    (hexp : st.accessToken = "" ∨ st.tokenExpiresAt ≤ now)
    (h1 : cfg.clientId ≠ "") (h2 : cfg.clientSecret ≠ "") (h3 : cfg.scopes ≠ "") :
    (runConc cfg st now oA oB eventLoopSchedule).exchanges = 2 := by
  have hc : ¬(cfg.clientId = "" ∨ cfg.clientSecret = "" ∨ cfg.scopes = "") :=
    not_or.mpr ⟨h1, not_or.mpr ⟨h2, h3⟩⟩
  cases oA <;> cases oB <;>
    simp [runConc, eventLoopSchedule, concStep, callerStart, callerResolve, hexp, hc]

/-- Witness for C3 amended at a concrete expired state and configuration. -/
theorem C3_two_refreshes_witness :
    (runConc ⟨"id", "secret", "scope"⟩ ⟨"stale", 500⟩ 600
      (.netErr "down") (.success "t" 90) eventLoopSchedule).exchanges = 2 :=
  C3_two_refreshes ⟨"id", "secret", "scope"⟩ ⟨"stale", 500⟩ 600
    (.netErr "down") (.success "t" 90) (Or.inr (by decide))
    (by decide) (by decide) (by decide)

/-- C4: a failure of the security-token fetch resolves to the empty token
instead of raising; the mutating form post is still issued, with its form
body intact, and the `CSRF-Token` header is attached exactly when the
resolved token is non-empty. -/
theorem C4_csrf_best_effort (cache : String) (o : CsrfOutcome) (auth : String)
    (form : List (String × String)) :
    ((aemFormPost cache o auth form).1.formBody = form) ∧
    (cache = "" →
      (∀ m, o = .netErr m →
        (getCsrfToken cache o).1 = "" ∧
        lookupHeader (aemFormPost cache o auth form).1 "CSRF-Token" = none) ∧
      (o = .notOk →
        (getCsrfToken cache o).1 = "" ∧
        lookupHeader (aemFormPost cache o auth form).1 "CSRF-Token" = none) ∧
      (o = .badJson →
        (getCsrfToken cache o).1 = "" ∧
        lookupHeader (aemFormPost cache o auth form).1 "CSRF-Token" = none)) ∧
    (lookupHeader (aemFormPost cache o auth form).1 "CSRF-Token" =
      (if (getCsrfToken cache o).1 = "" then none else some (getCsrfToken cache o).1)) := by
  refine ⟨rfl, ?_, ?_⟩
  · rintro rfl
    refine ⟨?_, ?_, ?_⟩
    · rintro m rfl
      exact ⟨rfl, by simp [aemFormPost, getCsrfToken, fetchCsrfToken, lookupHeader, List.find?]⟩
    · rintro rfl
      exact ⟨rfl, by simp [aemFormPost, getCsrfToken, fetchCsrfToken, lookupHeader, List.find?]⟩
    · rintro rfl
      exact ⟨rfl, by simp [aemFormPost, getCsrfToken, fetchCsrfToken, lookupHeader, List.find?]⟩
  · by_cases ht : (getCsrfToken cache o).1 = "" <;>
      simp [aemFormPost, lookupHeader, List.find?, ht]

/-- Witness for C4: a failed token fetch (non-success response) on an empty
cache still issues the request, without the header. -/
theorem C4_csrf_best_effort_witness :
    ((aemFormPost "" .notOk "Basic xyz" [("cmd", "createPage")]).1.formBody =
      [("cmd", "createPage")]) ∧
    (getCsrfToken "" .notOk).1 = "" ∧
    lookupHeader (aemFormPost "" .notOk "Basic xyz" [("cmd", "createPage")]).1
      "CSRF-Token" = none :=
  ⟨(C4_csrf_best_effort "" .notOk "Basic xyz" [("cmd", "createPage")]).1,
   ((C4_csrf_best_effort "" .notOk "Basic xyz" [("cmd", "createPage")]).2.1 rfl).2.1 rfl⟩

/-- C5 counterexample: `createPage`'s non-success failure message carries
the status code and the body but not the status text, so the claim that
every operation's failure message carries all three is false — here the
message of a 500 response with status text `Internal Server Error` does not
contain that status text. -/
theorem C5_status_text_counterexample :
    respOk ⟨500, "Internal Server Error", "oops"⟩ = false ∧
    createPageCheck ⟨500, "Internal Server Error", "oops"⟩ =
      .error "AEM create page error 500: oops" ∧
    strContains (createPageErrMsg ⟨500, "Internal Server Error", "oops"⟩)
      "Internal Server Error" = false := by
  refine ⟨rfl, rfl, by decide⟩

/-- C5 amended: a non-success response raises a structured failure whose
message carries the numeric status code and the raw body for every
operation; the status text is additionally carried by the operations going
through the shared request core (`aemRequest`), but not by the form-post
operations (create/update/delete page, create content fragment,
replicate), whose messages carry only status and body. -/
theorem C5_error_messages (r : HttpResponse) (h : respOk r = false) :
    aemRequestCheck r = .error (aemRequestErrMsg r) ∧
    strContains (aemRequestErrMsg r) (toString r.status) = true ∧
    strContains (aemRequestErrMsg r) r.statusText = true ∧
    strContains (aemRequestErrMsg r) r.body = true ∧
    createPageCheck r = .error (createPageErrMsg r) ∧
    strContains (createPageErrMsg r) (toString r.status) = true ∧
    strContains (createPageErrMsg r) r.body = true ∧
    strContains (updatePageErrMsg r) (toString r.status) = true ∧
    strContains (updatePageErrMsg r) r.body = true ∧
    strContains (deletePageErrMsg r) (toString r.status) = true ∧
    strContains (deletePageErrMsg r) r.body = true ∧
    strContains (createFragmentErrMsg r) (toString r.status) = true ∧
    strContains (createFragmentErrMsg r) r.body = true ∧
    strContains (replicateErrMsg r) (toString r.status) = true ∧
    strContains (replicateErrMsg r) r.body = true := by
  refine ⟨by simp [aemRequestCheck, h], ?_, ?_, ?_, by simp [createPageCheck, h],
    ?_, ?_, ?_, ?_, ?_, ?_, ?_, ?_, ?_, ?_⟩
  · exact strContains_of_eq _ "AEM API error " (toString r.status)
      (" " ++ r.statusText ++ ": " ++ r.body)
      (by simp [aemRequestErrMsg, String.append_assoc])
  · exact strContains_of_eq _ ("AEM API error " ++ toString r.status ++ " ")
      r.statusText (": " ++ r.body)
      (by simp [aemRequestErrMsg, String.append_assoc])
  · exact strContains_of_eq _
      ("AEM API error " ++ toString r.status ++ " " ++ r.statusText ++ ": ")
      r.body "" (by simp [aemRequestErrMsg, String.append_assoc])
  · exact strContains_of_eq _ "AEM create page error " (toString r.status)
      (": " ++ r.body) (by simp [createPageErrMsg, String.append_assoc])
  · exact strContains_of_eq _ ("AEM create page error " ++ toString r.status ++ ": ")
      r.body "" (by simp [createPageErrMsg, String.append_assoc])
  · exact strContains_of_eq _ "AEM update page error " (toString r.status)
      (": " ++ r.body) (by simp [updatePageErrMsg, String.append_assoc])
  · exact strContains_of_eq _ ("AEM update page error " ++ toString r.status ++ ": ")
      r.body "" (by simp [updatePageErrMsg, String.append_assoc])
  · exact strContains_of_eq _ "AEM delete page error " (toString r.status)
      (": " ++ r.body) (by simp [deletePageErrMsg, String.append_assoc])
  · exact strContains_of_eq _ ("AEM delete page error " ++ toString r.status ++ ": ")
      r.body "" (by simp [deletePageErrMsg, String.append_assoc])
  · exact strContains_of_eq _ "AEM create content fragment error " (toString r.status)
      (": " ++ r.body) (by simp [createFragmentErrMsg, String.append_assoc])
  · exact strContains_of_eq _
      ("AEM create content fragment error " ++ toString r.status ++ ": ")
      r.body "" (by simp [createFragmentErrMsg, String.append_assoc])
  · exact strContains_of_eq _ "AEM replication error " (toString r.status)
      (": " ++ r.body) (by simp [replicateErrMsg, String.append_assoc])
  · exact strContains_of_eq _ ("AEM replication error " ++ toString r.status ++ ": ")
      r.body "" (by simp [replicateErrMsg, String.append_assoc])

/-- Witness for C5 amended at a concrete 404 response. -/
theorem C5_error_messages_witness :
    aemRequestCheck ⟨404, "Not Found", "missing"⟩ =
      .error (aemRequestErrMsg ⟨404, "Not Found", "missing"⟩) ∧
    strContains (aemRequestErrMsg ⟨404, "Not Found", "missing"⟩) "Not Found" = true ∧
    strContains (createPageErrMsg ⟨404, "Not Found", "missing"⟩) "404" = true := by
  have h := C5_error_messages ⟨404, "Not Found", "missing"⟩ rfl
  exact ⟨h.1, h.2.2.1, h.2.2.2.2.2.1⟩

/-- C6 counterexample: the claim fails on the bag
`\x7bpath: "", limit: 5, "p.limit": 99\x7d` — the supplied `path` (empty
string, falsy in JS) is not emitted, and the extra key `p.limit` is not
excluded from the passthrough, so it overwrites the emitted `p.limit`
(which becomes `99`, not the supplied limit `5`). -/
theorem C6_search_claim_counterexample :
    searchClaimHolds
      { path := some "", limit := some 5, extra := [("p.limit", some (.num 99))] } = false ∧
    lookupQ (searchContentQuery
      { path := some "", limit := some 5, extra := [("p.limit", some (.num 99))] })
      "p.limit" = some "99" ∧
    lookupQ (searchContentQuery
      { path := some "", limit := some 5, extra := [("p.limit", some (.num 99))] })
      "path" = none := by
  refine ⟨by decide, by decide, by decide⟩

/-- C6 amended: for every search-argument bag whose extra keys are distinct
(as JS object keys are) and avoid the emitted pagination keys `p.limit` /
`p.offset`, the emitted query contains `p.limit` equal to the supplied
limit or 20 when absent and `p.offset` equal to the supplied offset or 0
when absent; each recognized filter (path, type, fulltext, orderby)
appears exactly when supplied with a truthy (non-empty) value; every other
defined extra key is passed through verbatim; recognized keys are excluded
from the passthrough; and every emitted key appears only once. -/
theorem C6_search_query (p : QueryBuilderParams)
    (hnd : (p.extra.map Prod.fst).Nodup)
    (hcol : ∀ kv ∈ p.extra, kv.2 ≠ none → kv.1 ≠ "p.limit" ∧ kv.1 ≠ "p.offset") :
    lookupQ (searchContentQuery p) "p.limit" = some (toString (p.limit.getD 20)) ∧
    lookupQ (searchContentQuery p) "p.offset" = some (toString (p.offset.getD 0)) ∧
    lookupQ (searchContentQuery p) "path" =
      (match p.path with
       | some s => if s = "" then none else some s
       | none => none) ∧
    lookupQ (searchContentQuery p) "type" =
      (match p.type with
       | some s => if s = "" then none else some s
       | none => none) ∧
    lookupQ (searchContentQuery p) "fulltext" =
      (match p.fulltext with
       | some s => if s = "" then none else some s
       | none => none) ∧
    lookupQ (searchContentQuery p) "orderby" =
      (match p.orderby with
       | some s => if s = "" then none else some s
       | none => none) ∧
    (∀ k v, (k, some v) ∈ p.extra → recognizedKeys.contains k = false →
      lookupQ (searchContentQuery p) k = some (qvalToString v)) ∧
    ((searchContentQuery p).map Prod.fst).Nodup := by
  refine ⟨?_, ?_, lookupQ_searchContentQuery_path p, lookupQ_searchContentQuery_type p,
    lookupQ_searchContentQuery_fulltext p, lookupQ_searchContentQuery_orderby p,
    ?_, nodupKeys_searchContentQuery p⟩
  · exact lookupQ_searchContentQuery_plimit p (fun kv hkv hne => (hcol kv hkv hne).1)
  · exact lookupQ_searchContentQuery_poffset p (fun kv hkv hne => (hcol kv hkv hne).2)
  · intro k v hmem hr
    exact lookupQ_searchContentQuery_extra p hnd k v hmem hr

/-- Witness for C6 amended at the spec's example bag
`\x7bfulltext: "sustainability", path: "/content/mysite", limit: undefined\x7d`. -/
theorem C6_search_query_witness :
    lookupQ (searchContentQuery
      { path := some "/content/mysite", fulltext := some "sustainability" })
      "p.limit" = some "20" ∧
    lookupQ (searchContentQuery
      { path := some "/content/mysite", fulltext := some "sustainability" })
      "p.offset" = some "0" ∧
    lookupQ (searchContentQuery
      { path := some "/content/mysite", fulltext := some "sustainability" })
      "path" = some "/content/mysite" ∧
    lookupQ (searchContentQuery
      { path := some "/content/mysite", fulltext := some "sustainability" })
      "fulltext" = some "sustainability" ∧
    lookupQ (searchContentQuery
      { path := some "/content/mysite", fulltext := some "sustainability" })
      "type" = none := by
  have h := C6_search_query
    { path := some "/content/mysite", fulltext := some "sustainability" }
    (by simp) (by simp)
  exact ⟨h.1, h.2.1, h.2.2.1, h.2.2.2.2.1, h.2.2.2.1⟩

/-- C7: listing content fragments issues a search whose argument bag always
carries the folder path, type `dam:Asset` and limit 50, and whose emitted
query always carries `p.limit=50`, `type=dam:Asset`, the base
content-fragment filter pair, and the path key whenever the folder path is
non-empty; the numbered model filter pair is emitted exactly when a
(non-empty) model path is supplied. -/
theorem C7_list_content_fragments (folder : String) (model : Option String) :
    (listContentFragmentsParams folder model).path = some folder ∧
    (listContentFragmentsParams folder model).type = some "dam:Asset" ∧
    (listContentFragmentsParams folder model).limit = some 50 ∧
    lookupQ (searchContentQuery (listContentFragmentsParams folder model))
      "p.limit" = some "50" ∧
    lookupQ (searchContentQuery (listContentFragmentsParams folder model))
      "type" = some "dam:Asset" ∧
    (folder ≠ "" →
      lookupQ (searchContentQuery (listContentFragmentsParams folder model))
        "path" = some folder) ∧
    lookupQ (searchContentQuery (listContentFragmentsParams folder model))
      "property" = some "jcr:content/contentFragment" ∧
    lookupQ (searchContentQuery (listContentFragmentsParams folder model))
      "property.value" = some "true" ∧
    (∀ m, model = some m → m ≠ "" →
      lookupQ (searchContentQuery (listContentFragmentsParams folder model))
        "property.1_property" = some "jcr:content/data/cq:model" ∧
      lookupQ (searchContentQuery (listContentFragmentsParams folder model))
        "property.1_value" = some m) ∧
    ((model = none ∨ model = some "") →
      lookupQ (searchContentQuery (listContentFragmentsParams folder model))
        "property.1_property" = none ∧
      lookupQ (searchContentQuery (listContentFragmentsParams folder model))
        "property.1_value" = none) := by
  have hkeys : ∀ kv ∈ (listContentFragmentsParams folder model).extra,
      kv.1 = "property" ∨ kv.1 = "property.value" ∨
      kv.1 = "property.1_property" ∨ kv.1 = "property.1_value" := by
    intro kv hkv
    cases model with
    | none =>
      simp only [listContentFragmentsParams, List.append_nil, List.mem_cons,
        List.not_mem_nil, or_false] at hkv
      rcases hkv with rfl | rfl <;> simp
    | some m =>
      by_cases hm : m = ""
      · simp only [listContentFragmentsParams, hm, if_pos, List.append_nil,
          List.mem_cons, List.not_mem_nil, or_false] at hkv
        rcases hkv with rfl | rfl <;> simp
      · simp only [listContentFragmentsParams, hm, if_neg, not_false_iff,
          List.mem_append, List.mem_cons, List.not_mem_nil, or_false] at hkv
        rcases hkv with (rfl | rfl) | (rfl | rfl) <;> simp
  have hnd : ((listContentFragmentsParams folder model).extra.map Prod.fst).Nodup := by
    cases model with
    | none =>
      have h : (listContentFragmentsParams folder none).extra.map Prod.fst =
          ["property", "property.value"] := by simp [listContentFragmentsParams]
      rw [h]
      decide
    | some m =>
      by_cases hm : m = ""
      · have h : (listContentFragmentsParams folder (some m)).extra.map Prod.fst =
            ["property", "property.value"] := by simp [listContentFragmentsParams, hm]
        rw [h]
        decide
      · have h : (listContentFragmentsParams folder (some m)).extra.map Prod.fst =
            ["property", "property.value", "property.1_property", "property.1_value"] := by
          simp [listContentFragmentsParams, hm]
        rw [h]
        decide
  have hmem1 : ("property", some (QVal.str "jcr:content/contentFragment")) ∈
      (listContentFragmentsParams folder model).extra :=
    List.mem_append_left _ (List.mem_cons_self _ _)
  have hmem2 : ("property.value", some (QVal.str "true")) ∈
      (listContentFragmentsParams folder model).extra :=
    List.mem_append_left _ (List.mem_cons_of_mem _ (List.mem_cons_self _ _))
  refine ⟨rfl, rfl, rfl, ?_, ?_, ?_, ?_, ?_, ?_, ?_⟩
  · rw [lookupQ_searchContentQuery_plimit _ (fun kv hkv _ => by
      rcases hkeys kv hkv with h | h | h | h <;> rw [h] <;> decide)]
    rfl
  · rw [lookupQ_searchContentQuery_type]
    rfl
  · intro hf
    rw [lookupQ_searchContentQuery_path]
    simp [listContentFragmentsParams, hf]
  · exact lookupQ_searchContentQuery_extra _ hnd "property"
      (.str "jcr:content/contentFragment") hmem1 (by decide)
  · exact lookupQ_searchContentQuery_extra _ hnd "property.value"
      (.str "true") hmem2 (by decide)
  · rintro m rfl hm
    have hext : (listContentFragmentsParams folder (some m)).extra =
        [("property", some (.str "jcr:content/contentFragment")),
         ("property.value", some (.str "true")),
         ("property.1_property", some (.str "jcr:content/data/cq:model")),
         ("property.1_value", some (.str m))] := by
      simp [listContentFragmentsParams, hm]
    constructor
    · refine lookupQ_searchContentQuery_extra _ hnd "property.1_property"
        (.str "jcr:content/data/cq:model") ?_ (by decide)
      rw [hext]
      exact List.mem_cons_of_mem _ (List.mem_cons_of_mem _ (List.mem_cons_self _ _))
    · refine lookupQ_searchContentQuery_extra _ hnd "property.1_value"
        (.str m) ?_ (by decide)
      rw [hext]
      exact List.mem_cons_of_mem _ (List.mem_cons_of_mem _
        (List.mem_cons_of_mem _ (List.mem_cons_self _ _)))
  · intro hmo
    have hext : (listContentFragmentsParams folder model).extra =
        [("property", some (.str "jcr:content/contentFragment")),
         ("property.value", some (.str "true"))] := by
      rcases hmo with rfl | rfl <;> simp [listContentFragmentsParams]
    constructor
    · refine lookupQ_searchContentQuery_none _ _ (by decide) (by decide) (by decide)
        (by decide) (by decide) (by decide) ?_
      rw [hext]
      intro kv hkv _
      simp only [List.mem_cons, List.not_mem_nil, or_false] at hkv
      rcases hkv with rfl | rfl <;> decide
    · refine lookupQ_searchContentQuery_none _ _ (by decide) (by decide) (by decide)
        (by decide) (by decide) (by decide) ?_
      rw [hext]
      intro kv hkv _
      simp only [List.mem_cons, List.not_mem_nil, or_false] at hkv
      rcases hkv with rfl | rfl <;> decide

/-- Witness for C7 at a concrete folder and model path. -/
theorem C7_list_content_fragments_witness :
    lookupQ (searchContentQuery (listContentFragmentsParams "/content/dam/site"
      (some "/conf/site/models/article"))) "path" = some "/content/dam/site" ∧
    lookupQ (searchContentQuery (listContentFragmentsParams "/content/dam/site"
      (some "/conf/site/models/article"))) "property.1_value" =
        some "/conf/site/models/article" ∧
    lookupQ (searchContentQuery (listContentFragmentsParams "/content/dam/site"
      none)) "property.1_property" = none := by
  have h1 := C7_list_content_fragments "/content/dam/site"
    (some "/conf/site/models/article")
  have h2 := C7_list_content_fragments "/content/dam/site" none
  exact ⟨h1.2.2.2.2.2.1 (by decide),
    (h1.2.2.2.2.2.2.2.2.1 "/conf/site/models/article" rfl (by decide)).2,
    (h2.2.2.2.2.2.2.2.2.2 (Or.inl rfl)).1⟩

/-- C8: `updatePageProperties(path, properties)` posts a form containing
the charset marker plus one field per property whose value is defined
(undefined-valued fields are skipped, all other values stringified); on a
success response it returns exactly `\x7bsuccess: true, path\x7d`, and on a
non-success response it raises a failure carrying the original status
code. -/
theorem C8_update_page_roundtrip (path : String)
    (props : List (String × Option QVal)) (r : HttpResponse) :
    (updatePageProperties path props r).1 =
      ("_charset_", "utf-8") ::
        props.filterMap (fun kv => kv.2.map fun v => (kv.1, qvalToString v)) ∧
    (respOk r = true →
      (updatePageProperties path props r).2 =
        .ok (.obj [("success", .bool true), ("path", .str path)])) ∧
    (respOk r = false →
      (updatePageProperties path props r).2 = .error (updatePageErrMsg r) ∧
      strContains (updatePageErrMsg r) (toString r.status) = true) := by
  refine ⟨?_, ?_, ?_⟩
  · show updateFormData props = _
    rw [updateFormData, foldl_form_filterMap]
    rfl
  · intro h
    simp [updatePageProperties, h]
  · intro h
    refine ⟨by simp [updatePageProperties, h], ?_⟩
    exact strContains_of_eq _ "AEM update page error " (toString r.status)
      (": " ++ r.body) (by simp [updatePageErrMsg, String.append_assoc])

/-- Witness for C8: a title update against a success response and against a
non-success response. -/
theorem C8_update_page_roundtrip_witness :
    (updatePageProperties "/content/p" [("jcr:title", some (.str "New Title")), ("skip", none)]
      ⟨200, "OK", ""⟩).1 = [("_charset_", "utf-8"), ("jcr:title", "New Title")] ∧
    (updatePageProperties "/content/p" [("jcr:title", some (.str "New Title")), ("skip", none)]
      ⟨200, "OK", ""⟩).2 =
      .ok (.obj [("success", .bool true), ("path", .str "/content/p")]) ∧
    (updatePageProperties "/content/p" [("jcr:title", some (.str "New Title"))]
      ⟨500, "Internal Server Error", "err"⟩).2 =
      .error (updatePageErrMsg ⟨500, "Internal Server Error", "err"⟩) := by
  refine ⟨?_, ?_, ?_⟩
  · exact (C8_update_page_roundtrip "/content/p"
      [("jcr:title", some (.str "New Title")), ("skip", none)] ⟨200, "OK", ""⟩).1
  · exact (C8_update_page_roundtrip "/content/p"
      [("jcr:title", some (.str "New Title")), ("skip", none)] ⟨200, "OK", ""⟩).2.1 rfl
  · exact ((C8_update_page_roundtrip "/content/p"
      [("jcr:title", some (.str "New Title"))]
      ⟨500, "Internal Server Error", "err"⟩).2.2 rfl).1

/-- C9: the diagnostic check reports all four probes (security token,
current user, `/content` read, `/content/dam` read), each entry computed
from its own probe's outcome alone, so a failure in one probe (for example
a 403 on the content read) neither prevents the others from being reported
nor changes their entries. -/
theorem C9_diagnostic_probes (baseUrl : String) (o1 : CsrfProbeOutcome)
    (o2 : UserProbeOutcome) (o3 o4 : ReadProbeOutcome) :
    ((checkConnection baseUrl o1 o2 o3 o4).map Prod.fst =
      ["baseUrl", "csrf", "currentUser", "contentAccess", "damAccess"]) ∧
    lookupEntry (checkConnection baseUrl o1 o2 o3 o4) "csrf" = some (csrfEntry o1) ∧
    lookupEntry (checkConnection baseUrl o1 o2 o3 o4) "currentUser" = some (userEntry o2) ∧
    lookupEntry (checkConnection baseUrl o1 o2 o3 o4) "contentAccess" = some (readEntry o3) ∧
    lookupEntry (checkConnection baseUrl o1 o2 o3 o4) "damAccess" = some (readEntry o4) ∧
    (∀ st bd, o3 = .resp ⟨403, st, bd⟩ →
      readEntry o3 = .obj [("status", .num 403), ("ok", .bool false)]) := by
  refine ⟨rfl, ?_, ?_, ?_, ?_, ?_⟩
  · simp [checkConnection, lookupEntry, List.find?]
  · simp [checkConnection, lookupEntry, List.find?]
  · simp [checkConnection, lookupEntry, List.find?]
  · simp [checkConnection, lookupEntry, List.find?]
  · rintro st bd rfl
    rfl

/-- Witness for C9: the content-read probe fails with 403 while the other
probes succeed; all four entries are present and only the content read is
marked failed. -/
theorem C9_diagnostic_probes_witness :
    ((checkConnection "http://aem" (.respOk ⟨200, "OK", ""⟩ "tokenvalue")
        (.respOk (.obj [("userID", .str "admin")]))
        (.resp ⟨403, "Forbidden", "denied"⟩) (.resp ⟨200, "OK", ""⟩)).map Prod.fst =
      ["baseUrl", "csrf", "currentUser", "contentAccess", "damAccess"]) ∧
    lookupEntry (checkConnection "http://aem" (.respOk ⟨200, "OK", ""⟩ "tokenvalue")
        (.respOk (.obj [("userID", .str "admin")]))
        (.resp ⟨403, "Forbidden", "denied"⟩) (.resp ⟨200, "OK", ""⟩)) "contentAccess" =
      some (readEntry (.resp ⟨403, "Forbidden", "denied"⟩)) ∧
    readEntry (.resp ⟨403, "Forbidden", "denied"⟩) =
      .obj [("status", .num 403), ("ok", .bool false)] := by
  have h := C9_diagnostic_probes "http://aem" (.respOk ⟨200, "OK", ""⟩ "tokenvalue")
    (.respOk (.obj [("userID", .str "admin")]))
    (.resp ⟨403, "Forbidden", "denied"⟩) (.resp ⟨200, "OK", ""⟩)
  exact ⟨h.1, h.2.2.2.1, h.2.2.2.2.2 "Forbidden" "denied" rfl⟩

/-- C10: in bearer-token mode a statically configured access token from the
environment is never used as-is: the cached expiry starts at 0, so the
first authorization resolution (at any non-negative clock) always enters
the refresh routine even though a token is present, and it fails with the
configuration error — rather than using the static token — whenever client
id, client secret, or scopes are unset. -/
theorem C10_static_token_never_used (env : String) (cfg : ImsConfig)
    (now : Int) (o : ImsOutcome) (hnow : 0 ≤ now) :
    (ensureValidToken cfg (initialTokenState env) now o).refreshAttempted = true ∧
    ((cfg.clientId = "" ∨ cfg.clientSecret = "" ∨ cfg.scopes = "") →
      (ensureValidToken cfg (initialTokenState env) now o).result = .error imsConfigErrMsg ∧
      (ensureValidToken cfg (initialTokenState env) now o).exchangeIssued = false ∧
      (ensureValidToken cfg (initialTokenState env) now o).newState =
        initialTokenState env) := by
  have hcond : (initialTokenState env).accessToken = "" ∨
      (initialTokenState env).tokenExpiresAt ≤ now := Or.inr hnow
  constructor
  · rcases hr : refreshAccessToken cfg now o with ⟨res, ex⟩
    cases res <;> simp [ensureValidToken, hcond, hr]
  · intro hc
    refine ⟨?_, ?_, ?_⟩ <;> simp [ensureValidToken, refreshAccessToken, hcond, hc]

/-- Witness for C10: a static environment token with unset IMS credentials
fails with the configuration error on first resolution. -/
theorem C10_static_token_never_used_witness :
    (ensureValidToken ⟨"", "", ""⟩ (initialTokenState "statictoken") 123
      (.netErr "unreachable")).refreshAttempted = true ∧
    (ensureValidToken ⟨"", "", ""⟩ (initialTokenState "statictoken") 123
      (.netErr "unreachable")).result = .error imsConfigErrMsg ∧
    (ensureValidToken ⟨"", "", ""⟩ (initialTokenState "statictoken") 123
      (.netErr "unreachable")).exchangeIssued = false := by
  have h := C10_static_token_never_used "statictoken" ⟨"", "", ""⟩ 123
    (.netErr "unreachable") (by decide)
  exact ⟨h.1, (h.2 (Or.inl rfl)).1, (h.2 (Or.inl rfl)).2.1⟩

end AemMcp
